import Mathlib

/-!
Verification development for the sim9xx AVR modem driver (sim9.c / sim9.h).

The C source is shallowly embedded: each C function that a claim is about
becomes a Lean function over an explicit environment (the stream of
messages the serial transport would deliver) and an explicit session
state.  Machine integers that matter (`uint8_t count`, `uint16_t loop`)
are modelled as `Nat` with the loop structure translated exactly,
including the post-decrement semantics of `while (cond && count--)`.
-/

namespace Sim9xx

/-! ### Match modes (sim9.h lines 58-63)

EQUAL 0, RELAX 1, STRICT 2, EEQUAL 3, ERELAX 4, ESTRICT 5. -/

inductive SearchType where
  | equal
  | relax
  | strict
  | eequal
  | erelax
  | estrict
deriving DecidableEq, Repr

/-! ### C string predicates used by sim9_searchfor

Messages are modelled as `List Char` (NUL-free C strings). -/

/-- Embeds `strstr(buffer, s) != NULL`: the needle `s` occurs as a
contiguous substring of `m`. -/
def containsSub (s : List Char) : List Char → Bool
  | [] => s.isEmpty
  | c :: rest => s.isPrefixOf (c :: rest) || containsSub s rest

/-- Embeds `strncmp(s, buffer, strlen(s)) == 0` on NUL-free strings:
`buffer` begins with `s`. -/
def strncmpPfx (s m : List Char) : Bool :=
  s.isPrefixOf m

/-- The literal "ERROR" message compared by `strcmp_P(buffer, PSTR("ERROR"))`. -/
def errorChars : List Char := ['E', 'R', 'R', 'O', 'R']

/-- Per-message match test of the `switch(type)` in sim9_searchfor
(part_000 lines 291-305): ERELAX falls through to RELAX (strstr),
EEQUAL falls through to EQUAL, and STRICT/ESTRICT hit the `default:`
label, which runs the same strncmp prefix check as EQUAL. -/
def matchesB (ty : SearchType) (s m : List Char) : Bool :=
  match ty with
  | .relax | .erelax => containsSub s m
  | _ => strncmpPfx s m

/-- Whether the `switch` sets `check_error = TRUE` for this mode
(part_000 lines 292-299).  Only the `case ERELAX:` and `case EEQUAL:`
labels assign it; ESTRICT falls into `default:` without ever setting
`check_error`, despite the doc comment "ESTRICT as STRICT or ERROR". -/
def errAware : SearchType → Bool
  | .erelax => true
  | .eequal => true
  | _ => false

/-! ### sim9_searchfor (part_000 lines 253-334)

The environment `env : Nat → Option (List Char)` gives the outcome of
the k-th `sim9_msg(buffer, size, 1)` call: `none` when it returned 0
(no valid message within 1 second), `some m` when it retrieved the
message `m`.  The function returns the `ok` result together with the
number of `sim9_msg` calls performed.

The C loop is
  `do { if (sim9_msg(..)) { ..switch..; if (!ok && check_error &&
     !strcmp(buffer,"ERROR")) count = 0; } } while (!ok && count--);`
so the body always runs once, a match exits with TRUE, the error rule
zeroes `count` so the post-decrement test fails, and otherwise the test
`count--` continues while the pre-decrement value is nonzero. -/

def searchforAux (s : List Char) (ty : SearchType)
    (env : Nat → Option (List Char)) : Nat → Nat → Bool × Nat
  | count, k =>
    match env k with
    | none =>
      match count with
      | 0 => (false, 1)
      | c + 1 =>
        let p := searchforAux s ty env c (k + 1)
        (p.1, p.2 + 1)
    | some m =>
      if matchesB ty s m then (true, 1)
      else if errAware ty && decide (m = errorChars) then (false, 1)
      else
        match count with
        | 0 => (false, 1)
        | c + 1 =>
          let p := searchforAux s ty env c (k + 1)
          (p.1, p.2 + 1)

/-- Embeds `sim9_searchfor(s, count, extbuff, extsize, type)`:
result flag and number of message retrievals attempted. -/
def sim9_searchfor (s : List Char) (count : Nat) (ty : SearchType)
    (env : Nat → Option (List Char)) : Bool × Nat :=
  searchforAux s ty env count 0

/-! ### sim9_msg (part_000 lines 169-208)

The caller's buffer is a byte store `Nat → Nat` (index to byte value);
the incoming raw lines are bytes `List Nat`.  The line-ready flag and
`usart_getmsg` are modelled through `env : Nat → Option (List Nat)`:
at loop iteration `k`, `env k = none` means `sim9->usart->flags.eol`
was clear, and `env k = some line` means a framed line was pending and
`usart_getmsg` dequeued it. -/

/-- Modelled from the spec: `usart_getmsg` (the Transport `dequeue_line`
operation, external to this repository) dequeues one framed line into
the output buffer, truncating to the supplied capacity, and returns the
resulting (truncated) length (spec section 4.1 and section 6). -/
def usart_getmsg (line : List Nat) (size : Nat) (buf : Nat → Nat) :
    Nat × (Nat → Nat) :=
  (min line.length size,
   fun i => if i < min line.length size then line.getD i 0 else buf i)

/-- The polling do-while loop of sim9_msg (part_000 lines 181-192):
delay 10ms, dequeue if a line is ready, treat a result shorter than
3 bytes as no message, and continue `while (!len && loop--)`.
`fuel` is the current value of `loop`; the body runs once before the
first test, so `fuel + 1` iterations happen in the worst case. -/
def sim9_msgAux (size : Nat) (env : Nat → Option (List Nat)) :
    Nat → Nat → (Nat → Nat) → Nat × (Nat → Nat)
  | fuel, k, buf =>
    let step : Nat × (Nat → Nat) :=
      match env k with
      | none => (0, buf)
      | some line =>
        let r := usart_getmsg line size buf
        if r.1 < 3 then (0, r.2) else r
    if step.1 ≠ 0 then step
    else
      match fuel with
      | 0 => (0, step.2)
      | f + 1 => sim9_msgAux size env f (k + 1) step.2

/-- Embeds `sim9_msg(s, size, timeout)`: returns the reported length and
the final buffer contents.  `loop = timeout * 100` (both fit in the
C `uint16_t` since `timeout ≤ 0xff`), and on a nonzero length the byte
at `len - 2` is overwritten with 0 (part_000 lines 197-198). -/
def sim9_msg (size timeout : Nat) (env : Nat → Option (List Nat))
    (buf : Nat → Nat) : Nat × (Nat → Nat) :=
  let r := sim9_msgAux size env (timeout * 100) 0 buf
  if r.1 ≠ 0 then
    (r.1, fun i => if i = r.1 - 2 then 0 else r.2 i)
  else r

/-! ### sim9_send_at (part_000 lines 405-451)

Answer shapes (sim9.h lines 74-77). -/

inductive SendatType where
  | none
  | ok
  | msgok
  | msg
deriving DecidableEq, Repr

/-- The sub-operations sim9_send_at performs after transmitting the
command, in execution order. -/
inductive Phase where
  | echoCheck
  | msgRead
  | okSearch
deriving DecidableEq, Repr

/-- The literal "OK" confirmation token searched by
`sim9_searchfor_P(PSTR("OK"), ...)`. -/
def okChars : List Char := ['O', 'K']

/-- Embeds `sim9_send_at(cmd, msg, size, type)` over a shared stream of
`sim9_msg` outcomes (`env k` is the k-th retrieval of the whole call,
an echo search and an OK search consuming one index per retrieval they
make).  Returns the result `ok`, the number of retrievals consumed, and
the ordered list of phases that actually ran.

The translation keeps C's short-circuit `&&`: in
`ok = ok && sim9_msg(...)` and `ok = ok && sim9_searchfor_P(...)` the
right operand only runs when `ok` is still TRUE, and the `switch` falls
through from `case SENDAT_TYPE_MSGOK:` into `case SENDAT_TYPE_OK:`. -/
def sim9_send_at (cmd : List Char) (echoOn : Bool) (eol : Nat)
    (ty : SendatType) (env : Nat → Option (List Char)) :
    Bool × Nat × List Phase :=
  let e : Bool × Nat × List Phase :=
    if echoOn then
      let r := searchforAux cmd .eequal env (eol + 1) 0
      (r.1, r.2, [Phase.echoCheck])
    else (true, 0, [])
  match ty with
  | .msgok =>
    let m : Bool × Nat × List Phase :=
      if e.1 then
        match env e.2.1 with
        | some _ => (true, e.2.1 + 1, e.2.2 ++ [Phase.msgRead])
        | none => (false, e.2.1 + 1, e.2.2 ++ [Phase.msgRead])
      else (false, e.2.1, e.2.2)
    if m.1 then
      let r := searchforAux okChars .eequal env (eol + 1) m.2.1
      (r.1, m.2.1 + r.2, m.2.2 ++ [Phase.okSearch])
    else (false, m.2.1, m.2.2)
  | .ok =>
    if e.1 then
      let r := searchforAux okChars .eequal env (eol + 1) e.2.1
      (r.1, e.2.1 + r.2, e.2.2 ++ [Phase.okSearch])
    else (false, e.2.1, e.2.2)
  | .msg =>
    if e.1 then
      match env e.2.1 with
      | some _ => (true, e.2.1 + 1, e.2.2 ++ [Phase.msgRead])
      | none => (false, e.2.1 + 1, e.2.2 ++ [Phase.msgRead])
    else (false, e.2.1, e.2.2)
  | .none => e

/-! ### Session state (sim9.h lines 111-212)

Only the bitfield members that the embedded operations touch are kept;
each C bit becomes a `Bool`, the 2-bit `provider` field a `Nat`. -/

structure Status where
  ready : Bool := false
  gprs : Bool := false
  cid : Bool := false
  sapbr : Bool := false
  http : Bool := false
  provider : Nat := 0
  tsmode : Bool := false
  tcpip : Nat := 0
  echo : Bool := false
  connected : Bool := false
deriving DecidableEq, Repr

structure Errors where
  init : Bool := false
  off : Bool := false
  pin : Bool := false
  imei : Bool := false
  apn : Bool := false
  tcpip : Bool := false
  netreg : Bool := false
  discon : Bool := false
  gprs : Bool := false
  esc : Bool := false
  connected : Bool := false
  gps : Bool := false
deriving DecidableEq, Repr

/-- Embeds `sim9->errors.all != 0`: some error bit is set. -/
def errAny (e : Errors) : Bool :=
  e.init || e.off || e.pin || e.imei || e.apn || e.tcpip || e.netreg ||
  e.discon || e.gprs || e.esc || e.connected || e.gps

/-- Selector for one bit of the error bitfield, used to state which
bits an operation can touch. -/
inductive ErrField where
  | init
  | off
  | pin
  | imei
  | apn
  | tcpip
  | netreg
  | discon
  | gprs
  | esc
  | connected
  | gps
deriving DecidableEq, Repr

def getErr : ErrField → Errors → Bool
  | .init, e => e.init
  | .off, e => e.off
  | .pin, e => e.pin
  | .imei, e => e.imei
  | .apn, e => e.apn
  | .tcpip, e => e.tcpip
  | .netreg, e => e.netreg
  | .discon, e => e.discon
  | .gprs, e => e.gprs
  | .esc, e => e.esc
  | .connected, e => e.connected
  | .gps, e => e.gps

/-- The whole session object `struct sim9_t` (buffers as NUL-free
strings). -/
structure Sim9 where
  status : Status := {}
  errors : Errors := {}
  gps_enable : Bool := false
  imei : List Char := []
  gps_lat : List Char := []
  gps_lon : List Char := []
deriving DecidableEq, Repr

/-! ### check_cgatt (part_000 lines 741-761)

The environment gives the outcome of the inner
`sim9_send_at_P("AT+CGATT?", buffer, 15, SENDAT_TYPE_MSGOK)` call:
`none` when the call failed, `some buf` when it succeeded with `buf`
in the answer buffer. -/

def cgattChars : List Char := ['+', 'C', 'G', 'A', 'T', 'T', ':', ' ', '1']

/-- Embeds `check_cgatt()`: on a successful query,
`memcmp_P(buffer, PSTR("+CGATT: 1"), 9)` decides `status.gprs`; on a
failed query `errors.gprs` is set. -/
def check_cgatt (res : Option (List Char)) (st : Sim9) : Sim9 :=
  match res with
  | some buf =>
    { st with status := { st.status with gprs := buf.take 9 = cgattChars } }
  | none =>
    { st with errors := { st.errors with gprs := true } }

/-- Environment of one gprs_connect / gprs_disconnect call: the result
of the `AT+CGATT=…` command and the stream of check_cgatt query
outcomes. -/
structure GprsEnv where
  attachOk : Bool
  cgatt : Nat → Option (List Char)

/-- The `do check_cgatt(); while (!sim9->status.gprs && retry--)` loop
of gprs_connect (part_000 lines 777-779), with `fuel` the current
`retry` value; up to `fuel + 1` queries run.  Returns the final state
and the number of check_cgatt calls. -/
def gprs_connectLoop (env : GprsEnv) : Nat → Nat → Sim9 → Sim9 × Nat
  | fuel, k, st =>
    let st' := check_cgatt (env.cgatt k) st
    if st'.status.gprs then (st', 1)
    else
      match fuel with
      | 0 => (st', 1)
      | f + 1 =>
        let p := gprs_connectLoop env f (k + 1) st'
        (p.1, p.2 + 1)

/-- Embeds `gprs_connect()` (part_000 lines 767-783): clear
`errors.gprs`, issue `AT+CGATT=1`; on success poll check_cgatt with
`retry = 5`; on failure set `errors.gprs`.  Also returns the number of
check_cgatt calls performed. -/
def gprs_connect (env : GprsEnv) (st : Sim9) : Sim9 × Nat :=
  let st0 := { st with errors := { st.errors with gprs := false } }
  if env.attachOk then gprs_connectLoop env 5 0 st0
  else ({ st0 with errors := { st0.errors with gprs := true } }, 0)

/-- The detach polling loop of gprs_disconnect (part_000 lines 796-798):
`do check_cgatt(); while (sim9->status.gprs && retry--)`. -/
def gprs_disconnectLoop (env : GprsEnv) : Nat → Nat → Sim9 → Sim9 × Nat
  | fuel, k, st =>
    let st' := check_cgatt (env.cgatt k) st
    if st'.status.gprs then
      match fuel with
      | 0 => (st', 1)
      | f + 1 =>
        let p := gprs_disconnectLoop env f (k + 1) st'
        (p.1, p.2 + 1)
    else (st', 1)

/-- Embeds `gprs_disconnect()` (part_000 lines 787-802). -/
def gprs_disconnect (env : GprsEnv) (st : Sim9) : Sim9 × Nat :=
  let st0 := { st with errors := { st.errors with gprs := false } }
  if env.attachOk then gprs_disconnectLoop env 5 0 st0
  else ({ st0 with errors := { st0.errors with gprs := true } }, 0)

/-! ### imei (part_000 lines 527-541)

The environment gives, per attempt `k`, the outcome of
`sim9_send_at_P("AT+CGSN", sim9->imei, IMEI_SIZE, SENDAT_TYPE_MSGOK)`:
`none` when the call failed, `some s` when it succeeded leaving the
string `s` in the identity buffer. -/

/-- The `while (sim9->errors.imei && retry--)` loop, with `fuel` the
current `retry` value: up to `fuel` iterations, each one attempt;
an attempt with a successful command and `strlen(imei) > 14` clears
the flag and stops.  Returns the flag, the attempt count, and the
identity-buffer content. -/
def imeiAux (env : Nat → Option (List Char)) :
    Nat → Nat → List Char → Bool × Nat × List Char
  | 0, _, b => (true, 0, b)
  | r + 1, k, b =>
    match env k with
    | some s =>
      if 14 < s.length then (false, 1, s)
      else
        let p := imeiAux env r (k + 1) s
        (p.1, p.2.1 + 1, p.2.2)
    | none =>
      let p := imeiAux env r (k + 1) b
      (p.1, p.2.1 + 1, p.2.2)

/-- Embeds `imei()`: clear the identity buffer, set `errors.imei`, then
retry up to 10 times; returns the final state and the number of command
attempts. -/
def imei (env : Nat → Option (List Char)) (st : Sim9) : Sim9 × Nat :=
  let p := imeiAux env 10 0 []
  ({ st with errors := { st.errors with imei := p.1 }, imei := p.2.2 },
   p.2.1)

/-! ### pin_check (part_000 lines 544-561) -/

def cpinChars : List Char :=
  ['+', 'C', 'P', 'I', 'N', ':', ' ', 'R', 'E', 'A', 'D', 'Y']

/-- Embeds `pin_check()`: `errors.pin` becomes FALSE exactly when the
`AT+CPIN?` query succeeded and `memcmp_P(buffer, "+CPIN: READY", 12)`
matched, else TRUE. -/
def pin_check (res : Option (List Char)) (st : Sim9) : Sim9 :=
  match res with
  | some buf =>
    if buf.take 12 = cpinChars then
      { st with errors := { st.errors with pin := false } }
    else { st with errors := { st.errors with pin := true } }
  | none => { st with errors := { st.errors with pin := true } }

/-! ### network_registered (part_000 lines 567-592) -/

def cgregChars : List Char :=
  ['+', 'C', 'G', 'R', 'E', 'G', ':', ' ', '0', ',', '1']

/-- The `while (sim9->errors.netreg && retry--)` loop with `retry = 5`:
an attempt succeeds when the `AT+CGREG?` query succeeded and the first
11 bytes of the answer are `"+CGREG: 0,1"`. -/
def netregAux (env : Nat → Option (List Char)) : Nat → Nat → Bool × Nat
  | 0, _ => (true, 0)
  | r + 1, k =>
    match env k with
    | some b =>
      if b.take 11 = cgregChars then (false, 1)
      else
        let p := netregAux env r (k + 1)
        (p.1, p.2 + 1)
    | none =>
      let p := netregAux env r (k + 1)
      (p.1, p.2 + 1)

/-- Embeds `network_registered()`. -/
def network_registered (env : Nat → Option (List Char)) (st : Sim9) :
    Sim9 × Nat :=
  let p := netregAux env 5 0
  ({ st with errors := { st.errors with netreg := p.1 } }, p.2)

/-! ### sim9_escape (part_000 lines 483-518)

`probes k` is the result of the k-th `sim9_send_at_P("AT", NULL, 0,
SENDAT_TYPE_OK)` status probe; the `+++` sends inside the
`if (sim9->status.connected)` block only write to the transport and the
discarded echo search, so they have no session-state effect. -/

/-- The `while (retry--)` loop with `retry = 3`: each iteration issues
one probe; success clears `connected` and breaks, failure sets
`connected` and retries.  Returns the final `connected` value and the
number of probes issued. -/
def escapeAux (probes : Nat → Bool) : Nat → Nat → Bool → Bool × Nat
  | 0, _, c => (c, 0)
  | r + 1, k, _ =>
    if probes k then (false, 1)
    else
      let p := escapeAux probes r (k + 1) true
      (p.1, p.2 + 1)

/-- Embeds `sim9_escape()`: after the loop, `errors.esc` is assigned
from `status.connected` (part_000 lines 514-517). -/
def sim9_escape (probes : Nat → Bool) (st : Sim9) : Sim9 × Nat :=
  let p := escapeAux probes 3 0 st.status.connected
  ({ st with status := { st.status with connected := p.1 },
             errors := { st.errors with esc := p.1 } }, p.2)

/-! ### apn_setup (part_000 lines 813-838) -/

def timChars : List Char := ['I', ' ', 'T', 'I', 'M']

def vodaChars : List Char := ['o', 'd', 'a', 'f', 'o']

/-- Embeds `apn_setup()`: `res` is the captured buffer of
`sim9_searchfor("+COPS:", 5, s, 30, RELAX)` when it succeeded.  On a
hit, bytes 12-16 resp. 13-17 classify the provider; on a miss the
provider becomes 0 and `errors.apn` is set. -/
def apn_setup (res : Option (List Char)) (st : Sim9) : Sim9 :=
  match res with
  | some s =>
    let p : Nat :=
      if (s.drop 12).take 5 = timChars then 3
      else if (s.drop 13).take 5 = vodaChars then 2
      else 1
    { st with status := { st.status with provider := p } }
  | none =>
    { st with status := { st.status with provider := 0 },
              errors := { st.errors with apn := true } }

/-- Embeds `gprs_wireless_connection()` (part_000 lines 840-845):
a failed `AT+CIICR` sets `errors.tcpip`. -/
def gprs_wireless_connection (ciicrOk : Bool) (st : Sim9) : Sim9 :=
  if ciicrOk then st
  else { st with errors := { st.errors with tcpip := true } }

/-- Environment of one sim9_tcpip_on call.  The `AT+CIPCCFG?`,
`AT+CIPMODE=…`, `AT+CSTT=…` and `AT+CIFSR` commands have their results
discarded by the C code, so they need no environment entry. -/
structure TcpipEnv where
  gprs : GprsEnv
  cops : Option (List Char)
  ciicrOk : Bool

/-- Embeds `sim9_tcpip_on()` (part_000 lines 851-903): clear
`errors.tcpip`, attach GPRS, detect the APN when attached, start the
task per provider (`default:` sets `errors.apn`), and when no error bit
is set activate the wireless connection. -/
def sim9_tcpip_on (env : TcpipEnv) (st : Sim9) : Sim9 :=
  let st0 := { st with errors := { st.errors with tcpip := false } }
  let st1 := (gprs_connect env.gprs st0).1
  let st2 := if st1.status.gprs then apn_setup env.cops st1 else st1
  let st3 :=
    match st2.status.provider with
    | 1 => st2
    | 2 => st2
    | 3 => st2
    | _ => { st2 with errors := { st2.errors with apn := true } }
  if errAny st3.errors then st3
  else gprs_wireless_connection env.ciicrOk st3

/-! ### sim9_init (part_000 lines 611-634) -/

/-- The freshly allocated session: all status, error and generic flags
zero, identity and location buffers empty. -/
def sim9_fresh : Sim9 := {}

/-- Embeds `sim9_init()`: the global `sim9` pointer is the
`Option Sim9` argument; allocation and clearing happen only when it is
null.  Returns the new global together with the returned session. -/
def sim9_init (cur : Option Sim9) : Option Sim9 × Sim9 :=
  match cur with
  | some s => (some s, s)
  | none => (some sim9_fresh, sim9_fresh)

/-! ## Properties of the Pattern Matcher -/

/-- The k-th retrieval yields a message matching the pattern. -/
def hitB (s : List Char) (ty : SearchType) (env : Nat → Option (List Char))
    (k : Nat) : Bool :=
  match env k with
  | some m => matchesB ty s m
  | none => false

/-- The k-th retrieval triggers the error-aware shortcut: a retrieved,
non-matching message equal to "ERROR" under a mode whose `switch` label
sets `check_error`. -/
def errStopB (s : List Char) (ty : SearchType)
    (env : Nat → Option (List Char)) (k : Nat) : Bool :=
  match env k with
  | some m => !matchesB ty s m && (errAware ty && decide (m = errorChars))
  | none => false

lemma searchforAux_spec (s : List Char) (ty : SearchType)
    (env : Nat → Option (List Char)) :
    ∀ count k,
      1 ≤ (searchforAux s ty env count k).2 ∧
      (searchforAux s ty env count k).2 ≤ count + 1 ∧
      ((searchforAux s ty env count k).1 = true →
        hitB s ty env (k + (searchforAux s ty env count k).2 - 1) = true ∧
        ∀ j, j < (searchforAux s ty env count k).2 - 1 →
          hitB s ty env (k + j) = false) ∧
      ((searchforAux s ty env count k).1 = false →
        (∀ j, j < (searchforAux s ty env count k).2 →
          hitB s ty env (k + j) = false) ∧
        ((searchforAux s ty env count k).2 = count + 1 ∨
          errStopB s ty env (k + (searchforAux s ty env count k).2 - 1)
            = true)) := by
  intro count
  induction count with
  | zero =>
    intro k
    cases hek : env k with
    | none =>
      refine ⟨?_, ?_, ?_, ?_⟩ <;>
        simp [searchforAux, hek, hitB, Nat.lt_one_iff]
    | some m =>
      by_cases hm : matchesB ty s m
      · refine ⟨?_, ?_, ?_, ?_⟩ <;>
          simp [searchforAux, hek, hm, hitB]
      · by_cases he : errAware ty && decide (m = errorChars)
        · refine ⟨?_, ?_, ?_, ?_⟩ <;>
            simp [searchforAux, hek, hm, he, hitB, errStopB, Nat.lt_one_iff]
        · refine ⟨?_, ?_, ?_, ?_⟩ <;>
            simp [searchforAux, hek, hm, he, hitB, errStopB, Nat.lt_one_iff]
  | succ c ih =>
    intro k
    cases hek : env k with
    | none =>
      have hres : searchforAux s ty env (c + 1) k =
          ((searchforAux s ty env c (k + 1)).1,
           (searchforAux s ty env c (k + 1)).2 + 1) := by
        simp [searchforAux, hek]
      obtain ⟨ih1, ih2, ihT, ihF⟩ := ih (k + 1)
      rw [hres]
      refine ⟨by omega, by omega, ?_, ?_⟩
      · intro hok
        obtain ⟨hh, hprev⟩ := ihT hok
        constructor
        · have harith : k + 1 + (searchforAux s ty env c (k + 1)).2 - 1 =
              k + ((searchforAux s ty env c (k + 1)).2 + 1) - 1 := by omega
          rwa [harith] at hh
        · intro j hj
          cases j with
          | zero => simp [hitB, hek]
          | succ j' =>
            have hx : k + (j' + 1) = k + 1 + j' := by omega
            rw [hx]
            exact hprev j' (by omega)
      · intro hok
        obtain ⟨hmiss, hend⟩ := ihF hok
        constructor
        · intro j hj
          cases j with
          | zero => simp [hitB, hek]
          | succ j' =>
            have hx : k + (j' + 1) = k + 1 + j' := by omega
            rw [hx]
            exact hmiss j' (by omega)
        · rcases hend with hend | hend
          · exact Or.inl (by omega)
          · refine Or.inr ?_
            have harith : k + 1 + (searchforAux s ty env c (k + 1)).2 - 1 =
                k + ((searchforAux s ty env c (k + 1)).2 + 1) - 1 := by omega
            rwa [harith] at hend
    | some m =>
      by_cases hm : matchesB ty s m
      · have hres : searchforAux s ty env (c + 1) k = (true, 1) := by
          simp [searchforAux, hek, hm]
        rw [hres]
        refine ⟨by omega, by omega, ?_, by simp⟩
        intro _
        refine ⟨?_, by omega⟩
        simp [hitB, hek, hm]
      · by_cases he : errAware ty && decide (m = errorChars)
        · have hres : searchforAux s ty env (c + 1) k = (false, 1) := by
            simp [searchforAux, hek, hm, he]
          rw [hres]
          refine ⟨by omega, by omega, by simp, ?_⟩
          intro _
          refine ⟨?_, Or.inr ?_⟩
          · intro j hj
            have hj0 : j = 0 := by omega
            subst hj0
            simp [hitB, hek, hm]
          · simp only [Nat.add_sub_cancel]
            simp [errStopB, hek, hm, he]
        · have hres : searchforAux s ty env (c + 1) k =
              ((searchforAux s ty env c (k + 1)).1,
               (searchforAux s ty env c (k + 1)).2 + 1) := by
            simp [searchforAux, hek, hm, he]
          obtain ⟨ih1, ih2, ihT, ihF⟩ := ih (k + 1)
          rw [hres]
          refine ⟨by omega, by omega, ?_, ?_⟩
          · intro hok
            obtain ⟨hh, hprev⟩ := ihT hok
            constructor
            · have harith : k + 1 + (searchforAux s ty env c (k + 1)).2 - 1 =
                  k + ((searchforAux s ty env c (k + 1)).2 + 1) - 1 := by omega
              rwa [harith] at hh
            · intro j hj
              cases j with
              | zero => simp [hitB, hek, hm]
              | succ j' =>
                have hx : k + (j' + 1) = k + 1 + j' := by omega
                rw [hx]
                exact hprev j' (by omega)
          · intro hok
            obtain ⟨hmiss, hend⟩ := ihF hok
            constructor
            · intro j hj
              cases j with
              | zero => simp [hitB, hek, hm]
              | succ j' =>
                have hx : k + (j' + 1) = k + 1 + j' := by omega
                rw [hx]
                exact hmiss j' (by omega)
            · rcases hend with hend | hend
              · exact Or.inl (by omega)
              · refine Or.inr ?_
                have harith : k + 1 + (searchforAux s ty env c (k + 1)).2 - 1 =
                    k + ((searchforAux s ty env c (k + 1)).2 + 1) - 1 := by
                  omega
                rwa [harith] at hend

end Sim9xx

namespace Sim9xx

/-- C1 counterexample: with pattern "OK", mode EQUAL, retry budget
count = 1 and a stream of non-matching messages, the Pattern Matcher
performs 2 message retrievals, not at most 1 as the claim's budget
(count, with count = 0 treated as count = 1) allows: the C do-while
`while (!ok && count--)` runs the body count + 1 times. -/
theorem searchfor_budget_cex :
    (sim9_searchfor ['O', 'K'] 1 .equal (fun _ => some ['A'])).2 = 2 ∧
    ¬ (sim9_searchfor ['O', 'K'] 1 .equal (fun _ => some ['A'])).2 ≤ 1 := by
  decide

/-- C1 (amended): for every pattern, mode, retrieval stream and budget
`count`, sim9_searchfor attempts at least 1 and at most `count + 1`
message retrievals (so count = 0 yields exactly the one mandatory
attempt); it stops and reports success exactly at the first retrieved
message that matches under the mode; and it reports failure only after
the retry budget is exhausted — either by performing all `count + 1`
retrievals without a match, or because the error-aware ERROR rule
zeroed the remaining count. -/
theorem searchfor_budget (s : List Char) (ty : SearchType)
    (env : Nat → Option (List Char)) (count : Nat) :
    (1 ≤ (sim9_searchfor s count ty env).2 ∧
      (sim9_searchfor s count ty env).2 ≤ count + 1) ∧
    ((sim9_searchfor s count ty env).1 = true →
      hitB s ty env ((sim9_searchfor s count ty env).2 - 1) = true ∧
      ∀ j, j < (sim9_searchfor s count ty env).2 - 1 →
        hitB s ty env j = false) ∧
    ((sim9_searchfor s count ty env).1 = false →
      (∀ j, j < (sim9_searchfor s count ty env).2 →
        hitB s ty env j = false) ∧
      ((sim9_searchfor s count ty env).2 = count + 1 ∨
        errStopB s ty env ((sim9_searchfor s count ty env).2 - 1)
          = true)) := by
  obtain ⟨h1, h2, hT, hF⟩ := searchforAux_spec s ty env count 0
  refine ⟨⟨h1, h2⟩, ?_, ?_⟩
  · intro hok
    obtain ⟨hh, hprev⟩ := hT hok
    refine ⟨by simpa using hh, ?_⟩
    intro j hj
    simpa using hprev j hj
  · intro hok
    obtain ⟨hmiss, hend⟩ := hF hok
    refine ⟨?_, ?_⟩
    · intro j hj
      simpa using hmiss j hj
    · rcases hend with hend | hend
      · exact Or.inl hend
      · exact Or.inr (by simpa using hend)

/-- Witness for searchfor_budget: pattern "OK" in EQUAL mode against a
stream whose second message is "OK", with budget 2: the matcher stops
with success at the second retrieval, the first having missed. -/
theorem searchfor_budget_witness :
    hitB ['O', 'K'] .equal
      (fun k => if k = 0 then none else some ['O', 'K'])
      ((sim9_searchfor ['O', 'K'] 2 .equal
        (fun k => if k = 0 then none else some ['O', 'K'])).2 - 1)
      = true ∧
    (sim9_searchfor ['O', 'K'] 2 .equal
      (fun k => if k = 0 then none else some ['O', 'K'])).2 ≤ 2 + 1 := by
  refine ⟨((searchfor_budget ['O', 'K'] .equal
    (fun k => if k = 0 then none else some ['O', 'K']) 2).2.1
      (by decide)).1, ?_⟩
  exact (searchfor_budget ['O', 'K'] .equal
    (fun k => if k = 0 then none else some ['O', 'K']) 2).1.2

/-- C2: the E-prefixed mode ESTRICT does not implement the documented
ERROR shortcut.  With pattern "+CGATT: 1" (so ERROR is not the sought
pattern), budget count = 2 and every retrieval returning exactly
"ERROR", the ESTRICT search keeps retrieving until the budget is gone
(3 retrievals) instead of forcing the count to 0 after the first ERROR
as the EEQUAL search does (1 retrieval): in the C switch, `case
ESTRICT:` falls into `default:` without ever setting `check_error`,
contradicting the function's own doc ("ESTRICT as STRICT or ERROR"). -/
theorem searchfor_estrict_error_bug :
    sim9_searchfor cgattChars 2 .estrict (fun _ => some errorChars)
      = (false, 3) ∧
    sim9_searchfor cgattChars 2 .eequal (fun _ => some errorChars)
      = (false, 1) ∧
    errAware .estrict = false ∧ errAware .eequal = true ∧
    errAware .erelax = true := by
  decide

end Sim9xx

namespace Sim9xx

/-! ## Properties of the Message Reader -/

/-- The line (if any) ready at iteration k qualifies: at least 3 bytes
survive truncation to the buffer capacity. -/
def qualB (size : Nat) (env : Nat → Option (List Nat)) (k : Nat) : Bool :=
  match env k with
  | some line => decide (3 ≤ min line.length size)
  | none => false

lemma sim9_msgAux_len (size : Nat) (env : Nat → Option (List Nat)) :
    ∀ fuel k buf, (sim9_msgAux size env fuel k buf).1 = 0 ∨
      (3 ≤ (sim9_msgAux size env fuel k buf).1 ∧
       (sim9_msgAux size env fuel k buf).1 ≤ size) := by
  intro fuel
  induction fuel with
  | zero =>
    intro k buf
    cases hek : env k with
    | none => simp [sim9_msgAux, hek]
    | some line =>
      by_cases hl : min line.length size < 3
      · simp [sim9_msgAux, hek, usart_getmsg, hl]
      · have hne : ¬ min line.length size = 0 := by omega
        simp only [sim9_msgAux, hek, usart_getmsg]
        simp [hl, hne]
        omega
  | succ f ih =>
    intro k buf
    cases hek : env k with
    | none =>
      have : sim9_msgAux size env (f + 1) k buf =
          sim9_msgAux size env f (k + 1) buf := by
        simp [sim9_msgAux, hek]
      rw [this]
      exact ih (k + 1) buf
    | some line =>
      by_cases hl : min line.length size < 3
      · have : sim9_msgAux size env (f + 1) k buf =
            sim9_msgAux size env f (k + 1) (usart_getmsg line size buf).2 := by
          simp [sim9_msgAux, hek, usart_getmsg, hl]
        rw [this]
        exact ih (k + 1) _
      · have hne : ¬ min line.length size = 0 := by omega
        simp only [sim9_msgAux, hek, usart_getmsg]
        simp [hl, hne]
        omega

lemma sim9_msgAux_frame (size : Nat) (env : Nat → Option (List Nat)) :
    ∀ fuel k buf i, size ≤ i →
      (sim9_msgAux size env fuel k buf).2 i = buf i := by
  intro fuel
  induction fuel with
  | zero =>
    intro k buf i hi
    cases hek : env k with
    | none => simp [sim9_msgAux, hek]
    | some line =>
      have hni : ¬ i < min line.length size := by omega
      by_cases hl : min line.length size < 3
      · simp [sim9_msgAux, hek, usart_getmsg, hl, hni]
        intro h1 h2
        exact absurd h2 (by omega)
      · have hne : ¬ min line.length size = 0 := by omega
        simp [sim9_msgAux, hek, usart_getmsg, hl, hne, hni]
        intro h1 h2
        exact absurd h2 (by omega)
  | succ f ih =>
    intro k buf i hi
    cases hek : env k with
    | none =>
      have : sim9_msgAux size env (f + 1) k buf =
          sim9_msgAux size env f (k + 1) buf := by
        simp [sim9_msgAux, hek]
      rw [this]
      exact ih (k + 1) buf i hi
    | some line =>
      have hni : ¬ i < min line.length size := by omega
      by_cases hl : min line.length size < 3
      · have : sim9_msgAux size env (f + 1) k buf =
            sim9_msgAux size env f (k + 1) (usart_getmsg line size buf).2 := by
          simp [sim9_msgAux, hek, usart_getmsg, hl]
        rw [this, ih (k + 1) _ i hi]
        simp only [usart_getmsg]
        have hni2 : ¬ i < min line.length size := by omega
        simp [hni2]
      · have hne : ¬ min line.length size = 0 := by omega
        simp [sim9_msgAux, hek, usart_getmsg, hl, hne, hni]
        intro h1 h2
        exact absurd h2 (by omega)

lemma sim9_msgAux_timeout (size : Nat) (env : Nat → Option (List Nat)) :
    ∀ fuel k buf, (∀ j, j ≤ fuel → qualB size env (k + j) = false) →
      (sim9_msgAux size env fuel k buf).1 = 0 := by
  intro fuel
  induction fuel with
  | zero =>
    intro k buf hq
    have h0 := hq 0 (by omega)
    cases hek : env k with
    | none => simp [sim9_msgAux, hek]
    | some line =>
      have hl : min line.length size < 3 := by
        by_contra hc
        rw [qualB] at h0
        rw [Nat.add_zero, hek] at h0
        simp at h0
        omega
      simp [sim9_msgAux, hek, usart_getmsg, hl]
  | succ f ih =>
    intro k buf hq
    have h0 := hq 0 (by omega)
    have hrest : ∀ j, j ≤ f → qualB size env (k + 1 + j) = false := by
      intro j hj
      have := hq (j + 1) (by omega)
      have hx : k + (j + 1) = k + 1 + j := by omega
      rwa [hx] at this
    cases hek : env k with
    | none =>
      have : sim9_msgAux size env (f + 1) k buf =
          sim9_msgAux size env f (k + 1) buf := by
        simp [sim9_msgAux, hek]
      rw [this]
      exact ih (k + 1) buf hrest
    | some line =>
      have hl : min line.length size < 3 := by
        by_contra hc
        rw [qualB] at h0
        rw [Nat.add_zero, hek] at h0
        simp at h0
        omega
      have : sim9_msgAux size env (f + 1) k buf =
          sim9_msgAux size env f (k + 1) (usart_getmsg line size buf).2 := by
        simp [sim9_msgAux, hek, usart_getmsg, hl]
      rw [this]
      exact ih (k + 1) _ hrest

/-- C3: for every buffer, capacity and timeout t ≥ 1, the Message
Reader (sim9_msg) (a) returns 0 when no qualifying line arrives in any
of its polling iterations, (b) never writes at or past the caller's
capacity bound, and (c) on a nonzero return the length is at least 3
(a dequeued line shorter than 3 bytes is treated as absent) and at most
the capacity, with a terminating zero byte stored at offset length - 2. -/
theorem sim9_msg_contract (size timeout : Nat)
    (env : Nat → Option (List Nat)) (buf : Nat → Nat)
    (_ht : 1 ≤ timeout) :
    ((∀ k, k ≤ timeout * 100 → qualB size env k = false) →
      (sim9_msg size timeout env buf).1 = 0) ∧
    (∀ i, size ≤ i → (sim9_msg size timeout env buf).2 i = buf i) ∧
    ((sim9_msg size timeout env buf).1 ≠ 0 →
      3 ≤ (sim9_msg size timeout env buf).1 ∧
      (sim9_msg size timeout env buf).1 ≤ size ∧
      (sim9_msg size timeout env buf).2
        ((sim9_msg size timeout env buf).1 - 2) = 0) := by
  refine ⟨?_, ?_, ?_⟩
  · intro hq
    have h0 : (sim9_msgAux size env (timeout * 100) 0 buf).1 = 0 := by
      apply sim9_msgAux_timeout
      intro j hj
      simpa using hq j hj
    simp [sim9_msg, h0]
  · intro i hi
    have hfr := sim9_msgAux_frame size env (timeout * 100) 0 buf i hi
    rcases sim9_msgAux_len size env (timeout * 100) 0 buf with h0 | ⟨h3, hs⟩
    · simp [sim9_msg, h0, hfr]
    · have hne : (sim9_msgAux size env (timeout * 100) 0 buf).1 ≠ 0 := by
        omega
      have hii : ¬ i = (sim9_msgAux size env (timeout * 100) 0 buf).1 - 2 := by
        omega
      simp [sim9_msg, hne, hii, hfr]
  · intro hne
    rcases sim9_msgAux_len size env (timeout * 100) 0 buf with h0 | ⟨h3, hs⟩
    · exfalso
      apply hne
      simp [sim9_msg, h0]
    · have hne' : (sim9_msgAux size env (timeout * 100) 0 buf).1 ≠ 0 := by
        omega
      refine ⟨?_, ?_, ?_⟩ <;> simp [sim9_msg, hne'] <;> omega

/-- Witness for sim9_msg_contract: capacity 5, timeout 1, a stream that
never delivers a line, and a buffer filled with 7: the reader returns 0
and leaves byte 5 (the first out-of-bounds index) untouched. -/
theorem sim9_msg_contract_witness :
    (sim9_msg 5 1 (fun _ => none) (fun _ => 7)).1 = 0 ∧
    (sim9_msg 5 1 (fun _ => none) (fun _ => 7)).2 5 = 7 := by
  have h := sim9_msg_contract 5 1 (fun _ => none) (fun _ => 7) (by decide)
  exact ⟨h.1 (fun k _ => rfl), h.2.1 5 (by decide)⟩

end Sim9xx

namespace Sim9xx

lemma sim9_msgAux_small (size : Nat) (env : Nat → Option (List Nat))
    (hs : size < 2) :
    ∀ fuel k buf, (sim9_msgAux size env fuel k buf).1 = 0 := by
  intro fuel
  induction fuel with
  | zero =>
    intro k buf
    cases hek : env k with
    | none => simp [sim9_msgAux, hek]
    | some line =>
      have hl : min line.length size < 3 := by omega
      simp [sim9_msgAux, hek, usart_getmsg, hl]
  | succ f ih =>
    intro k buf
    cases hek : env k with
    | none =>
      have : sim9_msgAux size env (f + 1) k buf =
          sim9_msgAux size env f (k + 1) buf := by
        simp [sim9_msgAux, hek]
      rw [this]
      exact ih (k + 1) buf
    | some line =>
      have hl : min line.length size < 3 := by omega
      have : sim9_msgAux size env (f + 1) k buf =
          sim9_msgAux size env f (k + 1) (usart_getmsg line size buf).2 := by
        simp [sim9_msgAux, hek, usart_getmsg, hl]
      rw [this]
      exact ih (k + 1) _

/-- C8: when the supplied capacity is less than 2, sim9_msg returns 0
for every timeout and every incoming stream — any dequeued line is
truncated below the 3-byte minimum and treated as absent — and no byte
at or past the capacity bound is written, so in particular no
terminator is placed outside the supplied buffer. -/
theorem sim9_msg_smallbuf (size timeout : Nat)
    (env : Nat → Option (List Nat)) (buf : Nat → Nat)
    (hs : size < 2) :
    (sim9_msg size timeout env buf).1 = 0 ∧
    (∀ i, size ≤ i → (sim9_msg size timeout env buf).2 i = buf i) := by
  have h0 := sim9_msgAux_small size env hs (timeout * 100) 0 buf
  constructor
  · simp [sim9_msg, h0]
  · intro i hi
    have hfr := sim9_msgAux_frame size env (timeout * 100) 0 buf i hi
    simp [sim9_msg, h0, hfr]

/-- Witness for sim9_msg_smallbuf: capacity 1, timeout 2, a stream that
always has the 4-byte line "OK\r\n" ready, and a buffer filled with 7:
the call returns 0 and index 1 keeps its prior value. -/
theorem sim9_msg_smallbuf_witness :
    (sim9_msg 1 2 (fun _ => some [79, 75, 13, 10]) (fun _ => 7)).1 = 0 ∧
    (sim9_msg 1 2 (fun _ => some [79, 75, 13, 10]) (fun _ => 7)).2 1 = 7 := by
  have h := sim9_msg_smallbuf 1 2 (fun _ => some [79, 75, 13, 10])
    (fun _ => 7) (by decide)
  exact ⟨h.1, h.2 1 (by decide)⟩

end Sim9xx

namespace Sim9xx

/-- C5 counterexample: Command Session with shape MSGOK, echo enabled,
command "AT", and a transport that never delivers a message.  The echo
check fails and — because C's `ok = ok && sim9_msg(...)` short-circuits
— the payload-message retrieval is NOT attempted: the only phase that
ran is the echo check, refuting the claim that retrieval is still
attempted after a failed echo check. -/
theorem send_at_echo_shortcircuit_cex :
    (sim9_send_at ['A', 'T'] true 0 .msgok (fun _ => none)).1 = false ∧
    Phase.msgRead ∉
      (sim9_send_at ['A', 'T'] true 0 .msgok (fun _ => none)).2.2 ∧
    (sim9_send_at ['A', 'T'] true 0 .msgok (fun _ => none)).2.2 =
      [Phase.echoCheck] := by
  decide

/-- C5 (amended): in sim9_send_at with answer shape MSGOK and echo
enabled, a failed echo check fails the whole call and, by the
short-circuit of C's logical AND, skips both the payload-message
retrieval and the terminal confirmation-token check; when the echo
check succeeds, the payload retrieval is attempted before the terminal
confirmation check (which runs only if the retrieval yielded a
message), and the overall result is the logical AND of the echo check
and the shape-specific checks. -/
theorem send_at_msgok_echo (cmd : List Char) (eol : Nat)
    (env : Nat → Option (List Char)) :
    ((searchforAux cmd .eequal env (eol + 1) 0).1 = false →
      sim9_send_at cmd true eol .msgok env =
        (false, (searchforAux cmd .eequal env (eol + 1) 0).2,
         [Phase.echoCheck])) ∧
    ((searchforAux cmd .eequal env (eol + 1) 0).1 = true →
      env (searchforAux cmd .eequal env (eol + 1) 0).2 = none →
      sim9_send_at cmd true eol .msgok env =
        (false, (searchforAux cmd .eequal env (eol + 1) 0).2 + 1,
         [Phase.echoCheck, Phase.msgRead])) ∧
    ((searchforAux cmd .eequal env (eol + 1) 0).1 = true →
      ∀ m, env (searchforAux cmd .eequal env (eol + 1) 0).2 = some m →
      sim9_send_at cmd true eol .msgok env =
        ((searchforAux okChars .eequal env (eol + 1)
            ((searchforAux cmd .eequal env (eol + 1) 0).2 + 1)).1,
         (searchforAux cmd .eequal env (eol + 1) 0).2 + 1 +
           (searchforAux okChars .eequal env (eol + 1)
             ((searchforAux cmd .eequal env (eol + 1) 0).2 + 1)).2,
         [Phase.echoCheck, Phase.msgRead, Phase.okSearch])) := by
  refine ⟨?_, ?_, ?_⟩
  · intro hE
    simp [sim9_send_at, hE]
  · intro hE henv
    simp [sim9_send_at, hE, henv]
  · intro hE m henv
    simp [sim9_send_at, hE, henv]

/-- Witness for send_at_msgok_echo: the failed-echo case at the
concrete transport that never delivers a message. -/
theorem send_at_msgok_echo_witness :
    sim9_send_at ['A', 'T'] true 0 .msgok (fun _ => none) =
      (false,
       (searchforAux ['A', 'T'] .eequal (fun _ => none) (0 + 1) 0).2,
       [Phase.echoCheck]) :=
  (send_at_msgok_echo ['A', 'T'] 0 (fun _ => none)).1 (by decide)

end Sim9xx

namespace Sim9xx

/-! ## Properties of the Bearer and Bring-up stages -/

lemma gprs_connectLoop_spec (env : GprsEnv) : ∀ fuel k st,
    1 ≤ (gprs_connectLoop env fuel k st).2 ∧
    (gprs_connectLoop env fuel k st).2 ≤ fuel + 1 ∧
    ((gprs_connectLoop env fuel k st).1.status.gprs = true ∨
      (gprs_connectLoop env fuel k st).2 = fuel + 1) := by
  intro fuel
  induction fuel with
  | zero =>
    intro k st
    by_cases hg : (check_cgatt (env.cgatt k) st).status.gprs = true
    · simp [gprs_connectLoop, hg]
    · simp [gprs_connectLoop, hg]
  | succ f ih =>
    intro k st
    by_cases hg : (check_cgatt (env.cgatt k) st).status.gprs = true
    · simp [gprs_connectLoop, hg]
    · have hres : gprs_connectLoop env (f + 1) k st =
          ((gprs_connectLoop env f (k + 1)
              (check_cgatt (env.cgatt k) st)).1,
           (gprs_connectLoop env f (k + 1)
              (check_cgatt (env.cgatt k) st)).2 + 1) := by
        simp [gprs_connectLoop, hg]
      obtain ⟨i1, i2, i3⟩ := ih (k + 1) (check_cgatt (env.cgatt k) st)
      rw [hres]
      refine ⟨by omega, by omega, ?_⟩
      rcases i3 with h | h
      · exact Or.inl h
      · exact Or.inr (by omega)

/-- C6 counterexample: with a successful attach command and a modem
that always answers the status query with "+CGATT: 0", gprs_connect
calls check_cgatt 6 times, not at most 5: the C loop
`do check_cgatt(); while (!status.gprs && retry--)` with retry = 5
runs one initial query plus up to 5 retries. -/
theorem gprs_connect_poll_cex :
    (gprs_connect
      ⟨true, fun _ => some ['+', 'C', 'G', 'A', 'T', 'T', ':', ' ', '0']⟩
      sim9_fresh).2 = 6 ∧
    ¬ (gprs_connect
      ⟨true, fun _ => some ['+', 'C', 'G', 'A', 'T', 'T', ':', ' ', '0']⟩
      sim9_fresh).2 ≤ 5 := by
  decide

/-- C6 (amended): gprs_connect issues the attach command; if it
succeeds, it polls check_cgatt between 1 and 6 times (one initial query
plus up to 5 retries), stopping as soon as the attached state is
observed — so if fewer than 6 polls ran, the final state is attached;
if the attach command itself fails, it sets the gprs-error flag
immediately and performs no status polling at all. -/
theorem gprs_connect_spec (env : GprsEnv) (st : Sim9) :
    (env.attachOk = false →
      gprs_connect env st =
        ({ st with errors := { st.errors with gprs := true } }, 0)) ∧
    (env.attachOk = true →
      1 ≤ (gprs_connect env st).2 ∧ (gprs_connect env st).2 ≤ 6 ∧
      ((gprs_connect env st).1.status.gprs = true ∨
        (gprs_connect env st).2 = 6)) := by
  constructor
  · intro h
    simp [gprs_connect, h]
  · intro h
    have hres : gprs_connect env st =
        gprs_connectLoop env 5 0
          { st with errors := { st.errors with gprs := false } } := by
      simp [gprs_connect, h]
    rw [hres]
    obtain ⟨a, b, c⟩ := gprs_connectLoop_spec env 5 0
      { st with errors := { st.errors with gprs := false } }
    exact ⟨a, b, c⟩

/-- Witness for gprs_connect_spec: a failing attach command sets the
gprs error flag with zero polls. -/
theorem gprs_connect_spec_witness :
    gprs_connect ⟨false, fun _ => none⟩ sim9_fresh =
      ({ sim9_fresh with
          errors := { sim9_fresh.errors with gprs := true } }, 0) :=
  (gprs_connect_spec ⟨false, fun _ => none⟩ sim9_fresh).1 rfl

/-- Attempt k of the identity loop qualifies: the AT+CGSN exchange
succeeded and the retrieved identity is longer than 14 characters. -/
def imeiQualB (env : Nat → Option (List Char)) (k : Nat) : Bool :=
  match env k with
  | some s => decide (14 < s.length)
  | none => false

lemma imeiAux_spec (env : Nat → Option (List Char)) : ∀ fuel k b,
    (imeiAux env fuel k b).2.1 ≤ fuel ∧
    ((imeiAux env fuel k b).1 = false →
      ∃ j, j < fuel ∧ imeiQualB env (k + j) = true) ∧
    ((∀ j, j < fuel → imeiQualB env (k + j) = false) →
      (imeiAux env fuel k b).1 = true ∧
      (imeiAux env fuel k b).2.1 = fuel) := by
  intro fuel
  induction fuel with
  | zero =>
    intro k b
    simp [imeiAux]
  | succ f ih =>
    intro k b
    cases hek : env k with
    | some s =>
      by_cases hlen : 14 < s.length
      · have hres1 : (imeiAux env (f + 1) k b).1 = false := by
          simp [imeiAux, hek, hlen]
        have hres2 : (imeiAux env (f + 1) k b).2.1 = 1 := by
          simp [imeiAux, hek, hlen]
        refine ⟨by omega, ?_, ?_⟩
        · intro _
          exact ⟨0, by omega, by simp [imeiQualB, hek, hlen]⟩
        · intro hall
          exfalso
          have := hall 0 (by omega)
          rw [Nat.add_zero] at this
          rw [imeiQualB, hek] at this
          simp [hlen] at this
      · have hres1 : (imeiAux env (f + 1) k b).1 =
            (imeiAux env f (k + 1) s).1 := by
          simp [imeiAux, hek, hlen]
        have hres2 : (imeiAux env (f + 1) k b).2.1 =
            (imeiAux env f (k + 1) s).2.1 + 1 := by
          simp [imeiAux, hek, hlen]
        obtain ⟨i1, iF, iA⟩ := ih (k + 1) s
        refine ⟨by omega, ?_, ?_⟩
        · intro hfalse
          rw [hres1] at hfalse
          obtain ⟨j, hj, hq⟩ := iF hfalse
          refine ⟨j + 1, by omega, ?_⟩
          have hx : k + (j + 1) = k + 1 + j := by omega
          rwa [hx]
        · intro hall
          have hrest : ∀ j, j < f → imeiQualB env (k + 1 + j) = false := by
            intro j hj
            have := hall (j + 1) (by omega)
            have hx : k + (j + 1) = k + 1 + j := by omega
            rwa [hx] at this
          obtain ⟨e1, e2⟩ := iA hrest
          rw [hres1, hres2]
          exact ⟨e1, by omega⟩
    | none =>
      have hres1 : (imeiAux env (f + 1) k b).1 =
          (imeiAux env f (k + 1) b).1 := by
        simp [imeiAux, hek]
      have hres2 : (imeiAux env (f + 1) k b).2.1 =
          (imeiAux env f (k + 1) b).2.1 + 1 := by
        simp [imeiAux, hek]
      obtain ⟨i1, iF, iA⟩ := ih (k + 1) b
      refine ⟨by omega, ?_, ?_⟩
      · intro hfalse
        rw [hres1] at hfalse
        obtain ⟨j, hj, hq⟩ := iF hfalse
        refine ⟨j + 1, by omega, ?_⟩
        have hx : k + (j + 1) = k + 1 + j := by omega
        rwa [hx]
      · intro hall
        have hrest : ∀ j, j < f → imeiQualB env (k + 1 + j) = false := by
          intro j hj
          have := hall (j + 1) (by omega)
          have hx : k + (j + 1) = k + 1 + j := by omega
          rwa [hx] at this
        obtain ⟨e1, e2⟩ := iA hrest
        rw [hres1, hres2]
        exact ⟨e1, by omega⟩

/-- C7: the identity retrieval makes at most 10 attempts of the
MSGOK-shaped AT+CGSN command; the identity-error flag ends up cleared
only when some attempt retrieved an identity string longer than 14
characters; and when every one of the 10 possible attempts fails that
test, the flag is still set after exactly 10 attempts. -/
theorem imei_spec (env : Nat → Option (List Char)) (st : Sim9) :
    (imei env st).2 ≤ 10 ∧
    ((imei env st).1.errors.imei = false →
      ∃ k, k < 10 ∧ ∃ s, env k = some s ∧ 14 < s.length) ∧
    ((∀ k, k < 10 → imeiQualB env k = false) →
      (imei env st).1.errors.imei = true ∧ (imei env st).2 = 10) := by
  obtain ⟨h1, hF, hA⟩ := imeiAux_spec env 10 0 []
  refine ⟨by simpa [imei] using h1, ?_, ?_⟩
  · intro hclear
    have hfalse : (imeiAux env 10 0 []).1 = false := by
      simpa [imei] using hclear
    obtain ⟨j, hj, hq⟩ := hF hfalse
    refine ⟨j, hj, ?_⟩
    rw [Nat.zero_add] at hq
    rw [imeiQualB] at hq
    cases hek : env j with
    | none => rw [hek] at hq; simp at hq
    | some s =>
      rw [hek] at hq
      simp at hq
      exact ⟨s, rfl, hq⟩
  · intro hall
    have hall' : ∀ j, j < 10 → imeiQualB env (0 + j) = false := by
      intro j hj
      rw [Nat.zero_add]
      exact hall j hj
    obtain ⟨e1, e2⟩ := hA hall'
    exact ⟨by simpa [imei] using e1, by simpa [imei] using e2⟩

/-- Witness for imei_spec: a modem that never answers leaves the
identity-error flag set after the full 10 attempts. -/
theorem imei_spec_witness :
    (imei (fun _ => none) sim9_fresh).1.errors.imei = true ∧
    (imei (fun _ => none) sim9_fresh).2 = 10 :=
  (imei_spec (fun _ => none) sim9_fresh).2.2 (fun _ _ => rfl)

end Sim9xx

namespace Sim9xx

lemma escapeAux_spec (probes : Nat → Bool) : ∀ fuel k c,
    (escapeAux probes fuel k c).2 ≤ fuel ∧
    (fuel = 0 → escapeAux probes fuel k c = (c, 0)) ∧
    (0 < fuel →
      1 ≤ (escapeAux probes fuel k c).2 ∧
      ((escapeAux probes fuel k c).1 = false →
        probes (k + (escapeAux probes fuel k c).2 - 1) = true ∧
        ∀ j, j < (escapeAux probes fuel k c).2 - 1 →
          probes (k + j) = false) ∧
      ((escapeAux probes fuel k c).1 = true →
        (escapeAux probes fuel k c).2 = fuel ∧
        ∀ j, j < fuel → probes (k + j) = false)) := by
  intro fuel
  induction fuel with
  | zero =>
    intro k c
    refine ⟨by simp [escapeAux], fun _ => rfl, fun h => absurd h (by omega)⟩
  | succ f ih =>
    intro k c
    by_cases hp : probes k = true
    · have hres : escapeAux probes (f + 1) k c = (false, 1) := by
        simp [escapeAux, hp]
      rw [hres]
      refine ⟨by omega, by omega, ?_⟩
      intro _
      refine ⟨by omega, ?_, by simp⟩
      intro _
      exact ⟨by simpa using hp, by omega⟩
    · have hres1 : (escapeAux probes (f + 1) k c).1 =
          (escapeAux probes f (k + 1) true).1 := by
        simp [escapeAux, hp]
      have hres2 : (escapeAux probes (f + 1) k c).2 =
          (escapeAux probes f (k + 1) true).2 + 1 := by
        simp [escapeAux, hp]
      obtain ⟨i1, i0, iPos⟩ := ih (k + 1) true
      refine ⟨by omega, by omega, ?_⟩
      intro _
      refine ⟨by omega, ?_, ?_⟩
      · intro hfalse
        rw [hres1] at hfalse
        rcases Nat.eq_zero_or_pos f with hf | hf
        · exfalso
          have := i0 hf
          rw [this] at hfalse
          simp at hfalse
        · obtain ⟨j1, jF, _⟩ := iPos hf
          obtain ⟨hlast, hprev⟩ := jF hfalse
          rw [hres2]
          constructor
          · have hx : k + ((escapeAux probes f (k + 1) true).2 + 1) - 1 =
                k + 1 + (escapeAux probes f (k + 1) true).2 - 1 := by
              omega
            rwa [hx]
          · intro j hj
            cases j with
            | zero => simpa using hp
            | succ j' =>
              have hx : k + (j' + 1) = k + 1 + j' := by omega
              rw [hx]
              exact hprev j' (by omega)
      · intro htrue
        rw [hres1] at htrue
        rcases Nat.eq_zero_or_pos f with hf | hf
        · have h0 := i0 hf
          subst hf
          rw [h0] at hres2
          refine ⟨by omega, ?_⟩
          intro j hj
          have hj0 : j = 0 := by omega
          subst hj0
          simpa using hp
        · obtain ⟨j1, _, jT⟩ := iPos hf
          obtain ⟨hlen, hall⟩ := jT htrue
          rw [hres2, hlen]
          refine ⟨rfl, ?_⟩
          intro j hj
          cases j with
          | zero => simpa using hp
          | succ j' =>
            have hx : k + (j' + 1) = k + 1 + j' := by omega
            rw [hx]
            exact hall j' (by omega)

/-- C9: whenever sim9_escape returns, the escape-error flag mirrors the
link-connected status flag; the function issues between 1 and 3 status
probes; the link-connected flag ends FALSE exactly when the last probe
issued succeeded (all earlier ones having failed), and ends TRUE
exactly when all 3 probes failed. -/
theorem sim9_escape_spec (probes : Nat → Bool) (st : Sim9) :
    (sim9_escape probes st).1.errors.esc =
      (sim9_escape probes st).1.status.connected ∧
    1 ≤ (sim9_escape probes st).2 ∧ (sim9_escape probes st).2 ≤ 3 ∧
    ((sim9_escape probes st).1.status.connected = false →
      probes ((sim9_escape probes st).2 - 1) = true ∧
      ∀ j, j < (sim9_escape probes st).2 - 1 → probes j = false) ∧
    ((sim9_escape probes st).1.status.connected = true →
      (sim9_escape probes st).2 = 3 ∧
      ∀ j, j < 3 → probes j = false) := by
  obtain ⟨h1, _, hPos⟩ := escapeAux_spec probes 3 0 st.status.connected
  obtain ⟨hge, hF, hT⟩ := hPos (by omega)
  refine ⟨rfl, ?_, ?_, ?_, ?_⟩
  · simpa [sim9_escape] using hge
  · simpa [sim9_escape] using h1
  · intro hfalse
    have hf : (escapeAux probes 3 0 st.status.connected).1 = false := by
      simpa [sim9_escape] using hfalse
    obtain ⟨hlast, hprev⟩ := hF hf
    constructor
    · simpa [sim9_escape] using hlast
    · intro j hj
      have := hprev j (by simpa [sim9_escape] using hj)
      simpa using this
  · intro htrue
    have ht : (escapeAux probes 3 0 st.status.connected).1 = true := by
      simpa [sim9_escape] using htrue
    obtain ⟨hlen, hall⟩ := hT ht
    refine ⟨by simpa [sim9_escape] using hlen, ?_⟩
    intro j hj
    simpa using hall j hj

/-- Witness for sim9_escape_spec: with every probe failing, the
sequencer issues exactly 3 probes. -/
theorem sim9_escape_spec_witness :
    (sim9_escape (fun _ => false) sim9_fresh).2 = 3 ∧
    ∀ j, j < 3 → (fun _ => (false : Bool)) j = false :=
  (sim9_escape_spec (fun _ => false) sim9_fresh).2.2.2.2 (by decide)

/-- C10: sim9_init is idempotent at the public interface: when a
Session already exists, a further call returns the same Session and
leaves every field unchanged (no reallocation, no clearing); in
particular a second call after any first call is a no-op. -/
theorem sim9_init_idempotent (cur : Option Sim9) (s : Sim9) :
    sim9_init (some s) = (some s, s) ∧
    sim9_init (sim9_init cur).1 = sim9_init cur := by
  cases cur <;> exact ⟨rfl, rfl⟩

end Sim9xx

namespace Sim9xx

/-! ## Stickiness of the error bitfield -/

/-- C4 counterexample: a session with the gprs error bit set, run
through gprs_connect with a succeeding attach command and an attached
status answer, ends with the gprs error bit cleared — so an operation
other than sim9_init / sim9_on does clear an error bit (gprs_connect
starts with `sim9->errors.gprs = FALSE`). -/
theorem errors_sticky_cex :
    ({ errors := { gprs := true } } : Sim9).errors.gprs = true ∧
    (gprs_connect ⟨true, fun _ => some cgattChars⟩
      { errors := { gprs := true } }).1.errors.gprs = false := by
  decide

lemma getErr_upd_gprs (f : ErrField) (e : Errors) (b : Bool)
    (hne : f ≠ .gprs) : getErr f { e with gprs := b } = getErr f e := by
  cases f
  case gprs => exact absurd rfl hne
  all_goals rfl

lemma getErr_upd_imei (f : ErrField) (e : Errors) (b : Bool)
    (hne : f ≠ .imei) : getErr f { e with imei := b } = getErr f e := by
  cases f
  case imei => exact absurd rfl hne
  all_goals rfl

lemma getErr_upd_pin (f : ErrField) (e : Errors) (b : Bool)
    (hne : f ≠ .pin) : getErr f { e with pin := b } = getErr f e := by
  cases f
  case pin => exact absurd rfl hne
  all_goals rfl

lemma getErr_upd_netreg (f : ErrField) (e : Errors) (b : Bool)
    (hne : f ≠ .netreg) : getErr f { e with netreg := b } = getErr f e := by
  cases f
  case netreg => exact absurd rfl hne
  all_goals rfl

lemma getErr_upd_esc (f : ErrField) (e : Errors) (b : Bool)
    (hne : f ≠ .esc) : getErr f { e with esc := b } = getErr f e := by
  cases f
  case esc => exact absurd rfl hne
  all_goals rfl

lemma getErr_upd_tcpip (f : ErrField) (e : Errors) (b : Bool)
    (hne : f ≠ .tcpip) : getErr f { e with tcpip := b } = getErr f e := by
  cases f
  case tcpip => exact absurd rfl hne
  all_goals rfl

lemma getErr_upd_apn_mono (f : ErrField) (e : Errors)
    (h : getErr f e = true) : getErr f { e with apn := true } = true := by
  cases f
  case apn => rfl
  all_goals simpa [getErr] using h

lemma getErr_upd_gprs_true_mono (f : ErrField) (e : Errors)
    (h : getErr f e = true) : getErr f { e with gprs := true } = true := by
  cases f
  case gprs => rfl
  all_goals simpa [getErr] using h

lemma getErr_upd_tcpip_true_mono (f : ErrField) (e : Errors)
    (h : getErr f e = true) : getErr f { e with tcpip := true } = true := by
  cases f
  case tcpip => rfl
  all_goals simpa [getErr] using h

lemma check_cgatt_err_mono (r : Option (List Char)) (st : Sim9)
    (f : ErrField) (h : getErr f st.errors = true) :
    getErr f (check_cgatt r st).errors = true := by
  cases r with
  | none => exact getErr_upd_gprs_true_mono f st.errors h
  | some buf => simpa [check_cgatt] using h

lemma gprs_connectLoop_err_mono (env : GprsEnv) : ∀ fuel k st f,
    getErr f st.errors = true →
    getErr f (gprs_connectLoop env fuel k st).1.errors = true := by
  intro fuel
  induction fuel with
  | zero =>
    intro k st f h
    by_cases hg : (check_cgatt (env.cgatt k) st).status.gprs = true
    · simpa [gprs_connectLoop, hg] using check_cgatt_err_mono _ st f h
    · simpa [gprs_connectLoop, hg] using check_cgatt_err_mono _ st f h
  | succ fl ih =>
    intro k st f h
    by_cases hg : (check_cgatt (env.cgatt k) st).status.gprs = true
    · simpa [gprs_connectLoop, hg] using check_cgatt_err_mono _ st f h
    · have hres : (gprs_connectLoop env (fl + 1) k st).1 =
          (gprs_connectLoop env fl (k + 1)
            (check_cgatt (env.cgatt k) st)).1 := by
        simp [gprs_connectLoop, hg]
      rw [hres]
      exact ih (k + 1) _ f (check_cgatt_err_mono _ st f h)

lemma gprs_disconnectLoop_err_mono (env : GprsEnv) : ∀ fuel k st f,
    getErr f st.errors = true →
    getErr f (gprs_disconnectLoop env fuel k st).1.errors = true := by
  intro fuel
  induction fuel with
  | zero =>
    intro k st f h
    by_cases hg : (check_cgatt (env.cgatt k) st).status.gprs = true
    · simpa [gprs_disconnectLoop, hg] using check_cgatt_err_mono _ st f h
    · simpa [gprs_disconnectLoop, hg] using check_cgatt_err_mono _ st f h
  | succ fl ih =>
    intro k st f h
    by_cases hg : (check_cgatt (env.cgatt k) st).status.gprs = true
    · have hres : (gprs_disconnectLoop env (fl + 1) k st).1 =
          (gprs_disconnectLoop env fl (k + 1)
            (check_cgatt (env.cgatt k) st)).1 := by
        simp [gprs_disconnectLoop, hg]
      rw [hres]
      exact ih (k + 1) _ f (check_cgatt_err_mono _ st f h)
    · simpa [gprs_disconnectLoop, hg] using check_cgatt_err_mono _ st f h

lemma gprs_connect_err_mono (env : GprsEnv) (st : Sim9) (f : ErrField)
    (hne : f ≠ .gprs) (h : getErr f st.errors = true) :
    getErr f (gprs_connect env st).1.errors = true := by
  have h0 : getErr f
      ({ st with errors := { st.errors with gprs := false } } : Sim9).errors
      = true := by
    rw [show ({ st with errors := { st.errors with gprs := false } } :
        Sim9).errors = { st.errors with gprs := false } from rfl]
    rw [getErr_upd_gprs f st.errors false hne]
    exact h
  by_cases ha : env.attachOk = true
  · have hres : (gprs_connect env st).1 =
        (gprs_connectLoop env 5 0
          { st with errors := { st.errors with gprs := false } }).1 := by
      simp [gprs_connect, ha]
    rw [hres]
    exact gprs_connectLoop_err_mono env 5 0 _ f h0
  · have hres : (gprs_connect env st).1.errors =
        { ({ st with errors := { st.errors with gprs := false } } :
            Sim9).errors with gprs := true } := by
      simp [gprs_connect, ha]
    rw [hres]
    exact getErr_upd_gprs_true_mono f _ h0

lemma gprs_disconnect_err_mono (env : GprsEnv) (st : Sim9) (f : ErrField)
    (hne : f ≠ .gprs) (h : getErr f st.errors = true) :
    getErr f (gprs_disconnect env st).1.errors = true := by
  have h0 : getErr f
      ({ st with errors := { st.errors with gprs := false } } : Sim9).errors
      = true := by
    rw [show ({ st with errors := { st.errors with gprs := false } } :
        Sim9).errors = { st.errors with gprs := false } from rfl]
    rw [getErr_upd_gprs f st.errors false hne]
    exact h
  by_cases ha : env.attachOk = true
  · have hres : (gprs_disconnect env st).1 =
        (gprs_disconnectLoop env 5 0
          { st with errors := { st.errors with gprs := false } }).1 := by
      simp [gprs_disconnect, ha]
    rw [hres]
    exact gprs_disconnectLoop_err_mono env 5 0 _ f h0
  · have hres : (gprs_disconnect env st).1.errors =
        { ({ st with errors := { st.errors with gprs := false } } :
            Sim9).errors with gprs := true } := by
      simp [gprs_disconnect, ha]
    rw [hres]
    exact getErr_upd_gprs_true_mono f _ h0

lemma apn_setup_err_mono (res : Option (List Char)) (st : Sim9)
    (f : ErrField) (h : getErr f st.errors = true) :
    getErr f (apn_setup res st).errors = true := by
  cases res with
  | some s => simpa [apn_setup] using h
  | none => exact getErr_upd_apn_mono f st.errors h

lemma gprs_wireless_err_mono (ci : Bool) (st : Sim9) (f : ErrField)
    (h : getErr f st.errors = true) :
    getErr f (gprs_wireless_connection ci st).errors = true := by
  by_cases hc : ci = true
  · simpa [gprs_wireless_connection, hc] using h
  · have hres : (gprs_wireless_connection ci st).errors =
        { st.errors with tcpip := true } := by
      simp [gprs_wireless_connection, hc]
    rw [hres]
    exact getErr_upd_tcpip_true_mono f st.errors h

lemma tcpip_on_err_mono (env : TcpipEnv) (st : Sim9) (f : ErrField)
    (hnt : f ≠ .tcpip) (hng : f ≠ .gprs)
    (h : getErr f st.errors = true) :
    getErr f (sim9_tcpip_on env st).errors = true := by
  have h0 : getErr f
      ({ st with errors := { st.errors with tcpip := false } } : Sim9).errors
      = true := by
    rw [show ({ st with errors := { st.errors with tcpip := false } } :
        Sim9).errors = { st.errors with tcpip := false } from rfl]
    rw [getErr_upd_tcpip f st.errors false hnt]
    exact h
  have h1 := gprs_connect_err_mono env.gprs
    { st with errors := { st.errors with tcpip := false } } f hng h0
  rw [sim9_tcpip_on]
  set st1 := (gprs_connect env.gprs
    { st with errors := { st.errors with tcpip := false } }).1 with hst1
  have h2 : getErr f (if st1.status.gprs = true then
      apn_setup env.cops st1 else st1).errors = true := by
    by_cases hgp : st1.status.gprs = true
    · simpa [hgp] using apn_setup_err_mono env.cops st1 f h1
    · simpa [hgp] using h1
  set st2 := if st1.status.gprs = true then apn_setup env.cops st1 else st1
    with hst2
  have h3 : ∀ st3 : Sim9, getErr f st3.errors = true →
      getErr f (match st3.status.provider with
        | 1 => st3
        | 2 => st3
        | 3 => st3
        | _ => { st3 with errors := { st3.errors with apn := true } }
        : Sim9).errors = true := by
    intro st3 hh
    match st3.status.provider with
    | 1 => exact hh
    | 2 => exact hh
    | 3 => exact hh
    | 0 => exact getErr_upd_apn_mono f st3.errors hh
    | n + 4 => exact getErr_upd_apn_mono f st3.errors hh
  have h4 := h3 st2 h2
  set st3 := (match st2.status.provider with
    | 1 => st2
    | 2 => st2
    | 3 => st2
    | _ => { st2 with errors := { st2.errors with apn := true } } : Sim9)
    with hst3
  by_cases he : errAny st3.errors = true
  · simpa [he] using h4
  · simpa [he] using gprs_wireless_err_mono env.ciicrOk st3 f h4

lemma imei_err_other (env : Nat → Option (List Char)) (st : Sim9)
    (f : ErrField) (hne : f ≠ .imei) :
    getErr f (imei env st).1.errors = getErr f st.errors := by
  have hres : (imei env st).1.errors =
      { st.errors with imei := (imeiAux env 10 0 []).1 } := rfl
  rw [hres]
  exact getErr_upd_imei f st.errors _ hne

lemma pin_check_err_other (res : Option (List Char)) (st : Sim9)
    (f : ErrField) (hne : f ≠ .pin) :
    getErr f (pin_check res st).errors = getErr f st.errors := by
  cases res with
  | none => exact getErr_upd_pin f st.errors true hne
  | some buf =>
    by_cases hb : buf.take 12 = cpinChars
    · have hres : (pin_check (some buf) st).errors =
          { st.errors with pin := false } := by
        simp [pin_check, hb]
      rw [hres]
      exact getErr_upd_pin f st.errors false hne
    · have hres : (pin_check (some buf) st).errors =
          { st.errors with pin := true } := by
        simp [pin_check, hb]
      rw [hres]
      exact getErr_upd_pin f st.errors true hne

lemma netreg_err_other (env : Nat → Option (List Char)) (st : Sim9)
    (f : ErrField) (hne : f ≠ .netreg) :
    getErr f (network_registered env st).1.errors = getErr f st.errors := by
  have hres : (network_registered env st).1.errors =
      { st.errors with netreg := (netregAux env 5 0).1 } := rfl
  rw [hres]
  exact getErr_upd_netreg f st.errors _ hne

lemma escape_err_other (probes : Nat → Bool) (st : Sim9)
    (f : ErrField) (hne : f ≠ .esc) :
    getErr f (sim9_escape probes st).1.errors = getErr f st.errors := by
  have hres : (sim9_escape probes st).1.errors =
      { st.errors with esc := (escapeAux probes 3 0 st.status.connected).1 }
      := rfl
  rw [hres]
  exact getErr_upd_esc f st.errors _ hne

/-- C4 (amended): error flags are cleared at explicit session
(re)initialization or power-on, and additionally by the operation that
owns the corresponding failure domain when it runs again
(gprs_connect / gprs_disconnect re-evaluate the gprs bit, imei the
identity bit, pin_check the pin bit, network_registered the
registration bit, sim9_escape the escape bit, and sim9_tcpip_on the
tcpip bit and — through its embedded gprs_connect — the gprs bit).
No embedded operation ever clears an error bit outside its own
domain(s): every bit of another domain that is set stays set. -/
theorem errors_cleared_only_by_owner (st : Sim9) (f : ErrField)
    (genv : GprsEnv) (tenv : TcpipEnv) (r : Option (List Char))
    (ienv nenv : Nat → Option (List Char)) (probes : Nat → Bool)
    (ci : Bool) (hset : getErr f st.errors = true) :
    getErr f (check_cgatt r st).errors = true ∧
    getErr f (apn_setup r st).errors = true ∧
    getErr f (gprs_wireless_connection ci st).errors = true ∧
    (f ≠ .gprs → getErr f (gprs_connect genv st).1.errors = true) ∧
    (f ≠ .gprs → getErr f (gprs_disconnect genv st).1.errors = true) ∧
    (f ≠ .imei → getErr f (imei ienv st).1.errors = true) ∧
    (f ≠ .pin → getErr f (pin_check r st).errors = true) ∧
    (f ≠ .netreg → getErr f (network_registered nenv st).1.errors = true) ∧
    (f ≠ .esc → getErr f (sim9_escape probes st).1.errors = true) ∧
    (f ≠ .tcpip → f ≠ .gprs →
      getErr f (sim9_tcpip_on tenv st).errors = true) := by
  refine ⟨check_cgatt_err_mono r st f hset,
    apn_setup_err_mono r st f hset,
    gprs_wireless_err_mono ci st f hset,
    fun hne => gprs_connect_err_mono genv st f hne hset,
    fun hne => gprs_disconnect_err_mono genv st f hne hset,
    fun hne => by rw [imei_err_other ienv st f hne]; exact hset,
    fun hne => by rw [pin_check_err_other r st f hne]; exact hset,
    fun hne => by rw [netreg_err_other nenv st f hne]; exact hset,
    fun hne => by rw [escape_err_other probes st f hne]; exact hset,
    fun hnt hng => tcpip_on_err_mono tenv st f hnt hng hset⟩

/-- Witness for errors_cleared_only_by_owner: a set init-error bit
survives a gprs_connect run. -/
theorem errors_cleared_only_by_owner_witness :
    getErr .init (gprs_connect ⟨false, fun _ => none⟩
      ({ errors := { init := true } } : Sim9)).1.errors = true :=
  (errors_cleared_only_by_owner ({ errors := { init := true } } : Sim9)
    .init ⟨false, fun _ => none⟩
    ⟨⟨false, fun _ => none⟩, none, false⟩ none
    (fun _ => none) (fun _ => none) (fun _ => false) false
    rfl).2.2.2.1 (by decide)

end Sim9xx
